import Mathlib

/-!
Verification of the Rent-vs-Buy projection engine (src/app.py).

The engine is embedded shallowly over exact rationals (ℚ): every state
variable of the Python simulation loop becomes a field of `SimState`, the
monthly amortization branch becomes `amortStep`, the yearly escalation
becomes `escalate`, and the sequence of emitted rows becomes `runSim`.
`npfPmt` embeds the documented closed form of `numpy_financial.pmt`
(with `fv = 0`, `when = 'end'`), the only library call the locked logic uses.
-/

namespace RentVsBuy

/-- The sidebar assumptions record ("the blue cells"), src/app.py lines 14-46.
All percent inputs are stored already divided by 100, as in the source. -/
structure Assumptions where
  purchase_price : ℚ
  down_payment_percent : ℚ
  mortgage_rate : ℚ
  mortgage_term : ℕ
  renovation_cost : ℚ
  reno_recapture : ℚ
  hoa_monthly : ℚ
  insurance_rate : ℚ
  maintenance_rate : ℚ
  tax_rate : ℚ
  assessed_value_pct : ℚ
  homestead_exemption : ℚ
  tax_cap_rate : ℚ
  appreciation_rate : ℚ
  inflation_rate : ℚ
  rent_appreciation : ℚ
  cost_of_capital : ℚ
  monthly_rent : ℚ
  selling_costs_pct : ℚ
deriving DecidableEq

/-- Domain constraints on the assumptions, spec §3: rates and currency
amounts non-negative, fractions in [0,1], term drawn from {15, 30}. -/
def WellFormed (a : Assumptions) : Prop :=
  0 ≤ a.purchase_price ∧
  0 ≤ a.down_payment_percent ∧ a.down_payment_percent ≤ 1 ∧
  0 ≤ a.mortgage_rate ∧
  (a.mortgage_term = 15 ∨ a.mortgage_term = 30) ∧
  0 ≤ a.renovation_cost ∧
  0 ≤ a.reno_recapture ∧ a.reno_recapture ≤ 1 ∧
  0 ≤ a.hoa_monthly ∧
  0 ≤ a.insurance_rate ∧
  0 ≤ a.maintenance_rate ∧
  0 ≤ a.tax_rate ∧
  0 ≤ a.assessed_value_pct ∧
  0 ≤ a.homestead_exemption ∧
  0 ≤ a.tax_cap_rate ∧
  0 ≤ a.appreciation_rate ∧
  0 ≤ a.inflation_rate ∧
  0 ≤ a.rent_appreciation ∧
  0 ≤ a.cost_of_capital ∧
  0 ≤ a.monthly_rent ∧
  0 ≤ a.selling_costs_pct

instance (a : Assumptions) : Decidable (WellFormed a) := by
  unfold WellFormed; infer_instance

/-- src/app.py line 52. -/
def down_payment_dollars (a : Assumptions) : ℚ :=
  a.purchase_price * a.down_payment_percent

/-- src/app.py line 53. -/
def loan_amount (a : Assumptions) : ℚ :=
  a.purchase_price - down_payment_dollars a

/-- src/app.py line 54. -/
def initial_market_value (a : Assumptions) : ℚ :=
  a.purchase_price + a.renovation_cost * a.reno_recapture

/-- src/app.py line 55. -/
def initial_cash_invested (a : Assumptions) : ℚ :=
  down_payment_dollars a + a.renovation_cost

/-- src/app.py line 58. -/
def monthly_rate (a : Assumptions) : ℚ := a.mortgage_rate / 12

/-- src/app.py line 59. -/
def n_periods (a : Assumptions) : ℕ := a.mortgage_term * 12

/-- Documented closed form of `numpy_financial.pmt rate nper pv` with
`fv = 0` and payments at period end: the payment solving
`pv·(1+rate)^nper + pmt·((1+rate)^nper − 1)/rate = 0`;
for `rate = 0` it degenerates to `-(pv / nper)`. -/
def npfPmt (rate : ℚ) (nper : ℕ) (pv : ℚ) : ℚ :=
  if rate = 0 then -(pv / (nper : ℚ))
  else -(pv * rate * (1 + rate) ^ nper / ((1 + rate) ^ nper - 1))

/-- src/app.py line 60. -/
def monthly_pi (a : Assumptions) : ℚ :=
  -npfPmt (monthly_rate a) (n_periods a) (loan_amount a)

/-- src/app.py line 63. -/
def taxable_value_base (a : Assumptions) : ℚ :=
  (a.purchase_price - a.homestead_exemption) * a.assessed_value_pct

/-- src/app.py line 64. -/
def initial_tax_bill (a : Assumptions) : ℚ :=
  taxable_value_base a * a.tax_rate

/-- The mutable locals of one simulation run, src/app.py lines 72-83. -/
structure SimState where
  home_value : ℚ
  rent_monthly : ℚ
  tax_bill : ℚ
  hoa : ℚ
  maint : ℚ
  insurance : ℚ
  loan_balance : ℚ
  portfolio : ℚ
deriving DecidableEq

/-- Initial state of the loop, src/app.py lines 73-83. -/
def initState (a : Assumptions) : SimState :=
  { home_value := initial_market_value a
    rent_monthly := a.monthly_rent
    tax_bill := initial_tax_bill a
    hoa := a.hoa_monthly
    maint := initial_market_value a * a.maintenance_rate
    insurance := initial_market_value a * a.insurance_rate
    loan_balance := loan_amount a
    portfolio := initial_cash_invested a }

/-- One month of the amortization inner loop, src/app.py lines 121-129:
if the balance is positive, subtract the principal part of the payment
(which may overshoot); otherwise reset the balance to zero. -/
def amortStep (r M b : ℚ) : ℚ :=
  if 0 < b then b - (M - b * r) else 0

/-- The loan balance after `k` months of payments starting from `b`. -/
def balAfter (r M b : ℚ) (k : ℕ) : ℚ := (amortStep r M)^[k] b

/-- Principal recorded for the month entered with balance `b`,
src/app.py lines 124, 127. -/
def monthPrincipal (r M b : ℚ) : ℚ := if 0 < b then M - b * r else 0

/-- Interest recorded for the month entered with balance `b`,
src/app.py lines 123, 126. -/
def monthInterest (r b : ℚ) : ℚ := if 0 < b then b * r else 0

/-- Accumulated `principal_paid` over the first `k` months from balance `b`. -/
def principalSum (r M b : ℚ) : ℕ → ℚ
  | 0 => 0
  | k + 1 => principalSum r M b k + monthPrincipal r M (balAfter r M b k)

/-- Accumulated `interest_paid` over the first `k` months from balance `b`. -/
def interestSum (r M b : ℚ) : ℕ → ℚ
  | 0 => 0
  | k + 1 => interestSum r M b k + monthInterest r (balAfter r M b k)

/-- The annual escalation block, src/app.py lines 86-101: every year the
home value appreciates; from year 2 on, rent, HOA, maintenance and
insurance grow with their rates and the tax bill grows by the capped rate. -/
def escalate (a : Assumptions) (year : ℕ) (s : SimState) : SimState :=
  if 1 < year then
    { s with
      home_value := s.home_value * (1 + a.appreciation_rate)
      rent_monthly := s.rent_monthly * (1 + a.rent_appreciation)
      hoa := s.hoa * (1 + a.inflation_rate)
      maint := s.maint * (1 + a.inflation_rate)
      insurance := s.insurance * (1 + a.inflation_rate)
      tax_bill := s.tax_bill * (1 + min a.inflation_rate a.tax_cap_rate) }
  else
    { s with home_value := s.home_value * (1 + a.appreciation_rate) }

/-- src/app.py line 104. -/
def owner_annual_spend (a : Assumptions) (s : SimState) : ℚ :=
  monthly_pi a * 12 + s.hoa * 12 + s.tax_bill + s.maint + s.insurance

/-- src/app.py line 105. -/
def renter_annual_spend (s : SimState) : ℚ := s.rent_monthly * 12

/-- One output row, src/app.py lines 143-146. -/
structure YearResult where
  year : ℕ
  owner_equity : ℚ
  renter_equity : ℚ
  benefit : ℚ
deriving DecidableEq

/-- One iteration of the yearly loop, src/app.py lines 85-146: escalate,
compute cash flows, grow the renter portfolio, amortize 12 months, and
emit the year's equities. -/
def yearStep (a : Assumptions) (year : ℕ) (s : SimState) : SimState × YearResult :=
  let s1 := escalate a year s
  let cash_flow_diff := owner_annual_spend a s1 - renter_annual_spend s1
  let portfolio := s1.portfolio * (1 + a.cost_of_capital) + cash_flow_diff
  let bal := balAfter (monthly_rate a) (monthly_pi a) s1.loan_balance 12
  let owner_equity := s1.home_value - s1.home_value * a.selling_costs_pct - bal
  ({ s1 with portfolio := portfolio, loan_balance := bal },
   { year := year
     owner_equity := owner_equity
     renter_equity := portfolio
     benefit := owner_equity - portfolio })

/-- The loop state after `y` completed years. -/
def stateAfter (a : Assumptions) : ℕ → SimState
  | 0 => initState a
  | y + 1 => (yearStep a (y + 1) (stateAfter a y)).1

/-- The row emitted for year `y` (meaningful for `1 ≤ y`). -/
def yearResult (a : Assumptions) (y : ℕ) : YearResult :=
  (yearStep a y (stateAfter a (y - 1))).2

/-- The engine's output: the chronological rows for years 1..15,
src/app.py lines 85, 143-146. -/
def runSim (a : Assumptions) : List YearResult :=
  (List.range 15).map fun i => yearResult a (i + 1)

/-! ### Closed-form amortization facts -/

/-- The annuity payment for principal `L`, monthly rate `r`, `n` periods. -/
def annuity (r L : ℚ) (n : ℕ) : ℚ := L * r * (1 + r) ^ n / ((1 + r) ^ n - 1)

/-- Closed form of the balance after `k` of `n` annuity payments. -/
def closedBal (r L : ℚ) (n k : ℕ) : ℚ :=
  L * ((1 + r) ^ n - (1 + r) ^ k) / ((1 + r) ^ n - 1)

theorem monthly_pi_eq_annuity (a : Assumptions) (h : a.mortgage_rate ≠ 0) :
    monthly_pi a = annuity (monthly_rate a) (loan_amount a) (n_periods a) := by
  have h' : monthly_rate a ≠ 0 := by
    simpa [monthly_rate, div_eq_zero_iff] using h
  simp [monthly_pi, npfPmt, annuity, h']

theorem monthly_pi_zero_rate (a : Assumptions) (h : a.mortgage_rate = 0) :
    monthly_pi a = loan_amount a / (n_periods a : ℚ) := by
  have h' : monthly_rate a = 0 := by simp [monthly_rate, h]
  simp [monthly_pi, npfPmt, h']

theorem loan_amount_nonneg (a : Assumptions) (hwf : WellFormed a) :
    0 ≤ loan_amount a := by
  obtain ⟨hp, hd0, hd1, -⟩ := hwf
  have : loan_amount a = a.purchase_price * (1 - a.down_payment_percent) := by
    simp [loan_amount, down_payment_dollars]; ring
  rw [this]
  exact mul_nonneg hp (by linarith)

theorem n_periods_pos (a : Assumptions) (hwf : WellFormed a) :
    0 < n_periods a := by
  rcases hwf.2.2.2.2.1 with h | h <;> simp [n_periods, h]

section ClosedForm

variable {r L : ℚ} {n : ℕ}

theorem denom_pos (hr : 0 < r) (hn : 0 < n) : 0 < (1 + r) ^ n - 1 := by
  have h1 : (1 : ℚ) < 1 + r := by linarith
  have := one_lt_pow₀ h1 hn.ne'
  linarith

theorem annuity_nonneg (hr : 0 < r) (hn : 0 < n) (hL : 0 ≤ L) :
    0 ≤ annuity r L n := by
  have hD := denom_pos hr hn
  have hpow : (0 : ℚ) ≤ (1 + r) ^ n := pow_nonneg (by linarith) n
  exact div_nonneg (mul_nonneg (mul_nonneg hL hr.le) hpow) hD.le

theorem closedBal_zero (hr : 0 < r) (hn : 0 < n) : closedBal r L n 0 = L := by
  have hD := denom_pos hr hn
  rw [closedBal, pow_zero, mul_div_assoc, div_self hD.ne', mul_one]

theorem closedBal_last : closedBal r L n n = 0 := by
  simp [closedBal]

theorem closedBal_pos (hr : 0 < r) (hL : 0 < L) (hk : k < n) :
    0 < closedBal r L n k := by
  have hD := denom_pos hr (Nat.lt_of_le_of_lt (Nat.zero_le k) hk)
  have hlt : (1 + r) ^ k < (1 + r) ^ n :=
    pow_lt_pow_right₀ (by linarith) hk
  exact div_pos (mul_pos hL (by linarith)) hD

theorem closedBal_nonneg (hr : 0 < r) (hL : 0 ≤ L) (hk : k ≤ n) :
    0 ≤ closedBal r L n k := by
  have hle : (1 + r) ^ k ≤ (1 + r) ^ n :=
    pow_le_pow_right₀ (by linarith) hk
  rcases le_or_lt ((1 + r) ^ n) 1 with hD | hD
  · have h1 : (1 : ℚ) ≤ (1 + r) ^ n := one_le_pow₀ (by linarith)
    have hD0 : (1 + r) ^ n - 1 = 0 := by linarith
    simp [closedBal, hD0]
  · exact div_nonneg (mul_nonneg hL (by linarith)) (by linarith)

theorem closedBal_antitone (hr : 0 < r) (hL : 0 ≤ L) (hjk : j ≤ k) :
    closedBal r L n k ≤ closedBal r L n j := by
  have hle : (1 + r) ^ j ≤ (1 + r) ^ k :=
    pow_le_pow_right₀ (by linarith) hjk
  rcases le_or_lt ((1 + r) ^ n) 1 with hD | hD
  · have h1 : (1 : ℚ) ≤ (1 + r) ^ n := one_le_pow₀ (by linarith)
    have hD0 : (1 + r) ^ n - 1 = 0 := by linarith
    simp [closedBal, hD0]
  · apply div_le_div_of_nonneg_right ?_ (by linarith)
    · exact mul_le_mul_of_nonneg_left (by linarith) hL

theorem closedBal_step (hr : 0 < r) (hn : 0 < n) :
    closedBal r L n k * (1 + r) - annuity r L n = closedBal r L n (k + 1) := by
  have hD := denom_pos hr hn
  rw [closedBal, closedBal, annuity]
  field_simp
  ring

theorem amortStep_of_pos {M b : ℚ} (hb : 0 < b) :
    amortStep r M b = b * (1 + r) - M := by
  simp [amortStep, hb]; ring

/-- The inner-loop balance matches the closed annuity form for the whole
term, provided the loan is positive and the rate positive. -/
theorem balAfter_closed (hr : 0 < r) (hL : 0 < L) (hn : 0 < n) :
    ∀ k, k ≤ n → balAfter r (annuity r L n) L k = closedBal r L n k := by
  intro k
  induction k with
  | zero => intro _; simp [balAfter, closedBal_zero hr hn]
  | succ k ih =>
    intro hk
    have hk' : k < n := Nat.lt_of_succ_le hk
    have hbal := ih hk'.le
    have hpos : 0 < closedBal r L n k := closedBal_pos hr hL hk'
    rw [balAfter, Function.iterate_succ_apply', ← balAfter, hbal,
      amortStep_of_pos hpos, closedBal_step hr hn]

end ClosedForm

section ZeroCases

variable {r M L : ℚ} {n : ℕ}

/-- With a zero rate the balance decreases linearly: after `k ≤ n` payments
of `L / n` it stands at `L·(n − k)/n`. -/
theorem balAfter_zero_rate (hL : 0 < L) (hn : 0 < n) :
    ∀ k, k ≤ n → balAfter 0 (L / (n : ℚ)) L k = L * ((n : ℚ) - k) / n := by
  have hn' : (0 : ℚ) < n := by exact_mod_cast hn
  intro k
  induction k with
  | zero =>
    intro _
    rw [balAfter, Function.iterate_zero_apply]
    push_cast
    field_simp
  | succ k ih =>
    intro hk
    have hk' : k < n := Nat.lt_of_succ_le hk
    have hkq : (k : ℚ) < n := by exact_mod_cast hk'
    have hbal := ih hk'.le
    have hpos : 0 < L * ((n : ℚ) - k) / n :=
      div_pos (mul_pos hL (by linarith)) hn'
    rw [balAfter, Function.iterate_succ_apply', ← balAfter, hbal]
    rw [amortStep, if_pos hpos]
    push_cast
    field_simp
    ring

/-- From a zero balance the inner loop only re-asserts zero. -/
theorem balAfter_of_zero (k : ℕ) : balAfter r M 0 k = 0 := by
  have hfix : amortStep r M 0 = 0 := by simp [amortStep]
  exact Function.iterate_fixed hfix k

theorem monthly_pi_zero_loan (a : Assumptions) (h : loan_amount a = 0) :
    monthly_pi a = 0 := by
  rw [monthly_pi, npfPmt]
  split <;> simp [h]

end ZeroCases

/-! ### The simulated balance -/

/-- The loan balance `k` months into the simulation. -/
def simBal (a : Assumptions) (k : ℕ) : ℚ :=
  balAfter (monthly_rate a) (monthly_pi a) (loan_amount a) k

theorem monthly_rate_pos (a : Assumptions) (hwf : WellFormed a)
    (h : a.mortgage_rate ≠ 0) : 0 < monthly_rate a := by
  have h0 : 0 ≤ a.mortgage_rate := hwf.2.2.2.1
  have : 0 < a.mortgage_rate := lt_of_le_of_ne h0 (Ne.symm h)
  simp only [monthly_rate]
  positivity

/-- Case description of the simulated balance over the whole loan term. -/
theorem simBal_eq (a : Assumptions) (hwf : WellFormed a) {k : ℕ}
    (hk : k ≤ n_periods a) :
    simBal a k =
      if loan_amount a = 0 then 0
      else if a.mortgage_rate = 0 then
        loan_amount a * ((n_periods a : ℚ) - k) / (n_periods a : ℚ)
      else closedBal (monthly_rate a) (loan_amount a) (n_periods a) k := by
  have hn := n_periods_pos a hwf
  rcases eq_or_lt_of_le (loan_amount_nonneg a hwf) with hL | hL
  · rw [if_pos hL.symm]
    rw [simBal, ← hL, balAfter_of_zero]
  · rw [if_neg (by linarith)]
    by_cases hr : a.mortgage_rate = 0
    · rw [if_pos hr, simBal, monthly_pi_zero_rate a hr]
      have hr' : monthly_rate a = 0 := by simp [monthly_rate, hr]
      rw [hr']
      exact balAfter_zero_rate hL hn k hk
    · rw [if_neg hr, simBal, monthly_pi_eq_annuity a hr]
      exact balAfter_closed (monthly_rate_pos a hwf hr) hL hn k hk

/-- The simulated balance is never negative within the loan term. -/
theorem simBal_nonneg (a : Assumptions) (hwf : WellFormed a) {k : ℕ}
    (hk : k ≤ n_periods a) : 0 ≤ simBal a k := by
  have hn := n_periods_pos a hwf
  have hnq : (0 : ℚ) < (n_periods a : ℚ) := by exact_mod_cast hn
  have hkq : (k : ℚ) ≤ (n_periods a : ℚ) := by exact_mod_cast hk
  rw [simBal_eq a hwf hk]
  split
  · exact le_refl 0
  · rename_i hL0
    have hL : 0 < loan_amount a :=
      lt_of_le_of_ne (loan_amount_nonneg a hwf) (Ne.symm hL0)
    split
    · exact div_nonneg (mul_nonneg hL.le (by linarith)) hnq.le
    · rename_i hr
      exact closedBal_nonneg (monthly_rate_pos a hwf hr) hL.le hk

/-- The simulated balance is antitone (month over month) within the term. -/
theorem simBal_antitone (a : Assumptions) (hwf : WellFormed a) {j k : ℕ}
    (hjk : j ≤ k) (hk : k ≤ n_periods a) : simBal a k ≤ simBal a j := by
  have hn := n_periods_pos a hwf
  have hnq : (0 : ℚ) < (n_periods a : ℚ) := by exact_mod_cast hn
  have hjq : (j : ℚ) ≤ (k : ℚ) := by exact_mod_cast hjk
  rw [simBal_eq a hwf hk, simBal_eq a hwf (le_trans hjk hk)]
  split
  · exact le_refl 0
  · rename_i hL0
    have hL : 0 < loan_amount a :=
      lt_of_le_of_ne (loan_amount_nonneg a hwf) (Ne.symm hL0)
    split
    · apply div_le_div_of_nonneg_right ?_ hnq.le
      · exact mul_le_mul_of_nonneg_left (by linarith) hL.le
    · rename_i hr
      exact closedBal_antitone (monthly_rate_pos a hwf hr) hL.le hjk

/-- Strictly inside the term the balance of a positive loan stays positive. -/
theorem simBal_pos (a : Assumptions) (hwf : WellFormed a)
    (hL : 0 < loan_amount a) {k : ℕ} (hk : k < n_periods a) :
    0 < simBal a k := by
  have hn := n_periods_pos a hwf
  have hnq : (0 : ℚ) < (n_periods a : ℚ) := by exact_mod_cast hn
  have hkq : (k : ℚ) < (n_periods a : ℚ) := by exact_mod_cast hk
  rw [simBal_eq a hwf hk.le, if_neg (by linarith)]
  split
  · exact div_pos (mul_pos hL (by linarith)) hnq
  · rename_i hr
    exact closedBal_pos (monthly_rate_pos a hwf hr) hL hk

/-- At the end of the term the loan is retired exactly. -/
theorem simBal_last (a : Assumptions) (hwf : WellFormed a) :
    simBal a (n_periods a) = 0 := by
  rw [simBal_eq a hwf (le_refl _)]
  split
  · rfl
  · split
    · simp
    · exact closedBal_last

/-- The fixed monthly payment is non-negative on well-formed assumptions. -/
theorem monthly_pi_nonneg (a : Assumptions) (hwf : WellFormed a) :
    0 ≤ monthly_pi a := by
  have hn := n_periods_pos a hwf
  have hnq : (0 : ℚ) ≤ (n_periods a : ℚ) := by positivity
  have hL := loan_amount_nonneg a hwf
  by_cases hr : a.mortgage_rate = 0
  · rw [monthly_pi_zero_rate a hr]
    exact div_nonneg hL hnq
  · rw [monthly_pi_eq_annuity a hr]
    exact annuity_nonneg (monthly_rate_pos a hwf hr) hn hL

/-! ### Connecting the yearly loop to the monthly balance -/

theorem escalate_loan_balance (a : Assumptions) (year : ℕ) (s : SimState) :
    (escalate a year s).loan_balance = s.loan_balance := by
  rw [escalate]; split <;> rfl

theorem escalate_portfolio (a : Assumptions) (year : ℕ) (s : SimState) :
    (escalate a year s).portfolio = s.portfolio := by
  rw [escalate]; split <;> rfl

/-- After `y` completed years the loop has run `12·y` months of payments. -/
theorem stateAfter_loan_balance (a : Assumptions) :
    ∀ y, (stateAfter a y).loan_balance = simBal a (12 * y) := by
  intro y
  induction y with
  | zero => rfl
  | succ y ih =>
    have h12 : 12 * (y + 1) = 12 + 12 * y := by ring
    rw [stateAfter]
    show balAfter (monthly_rate a) (monthly_pi a)
      ((escalate a (y + 1) (stateAfter a y)).loan_balance) 12 = simBal a (12 * (y + 1))
    rw [escalate_loan_balance, ih, h12, simBal, simBal, balAfter, balAfter, balAfter,
      Function.iterate_add_apply]

/-! ### Principal and interest accounting -/

theorem sums_closed {r L : ℚ} {n : ℕ} (hr : 0 < r) (hL : 0 < L) (hn : 0 < n) :
    ∀ k, k ≤ n →
      principalSum r (annuity r L n) L k = L - closedBal r L n k ∧
      interestSum r (annuity r L n) L k + principalSum r (annuity r L n) L k
        = (k : ℚ) * annuity r L n := by
  intro k
  induction k with
  | zero =>
    intro _
    refine ⟨?_, ?_⟩
    · simp [principalSum, closedBal_zero hr hn]
    · simp [principalSum, interestSum]
  | succ k ih =>
    intro hk
    have hk' : k < n := Nat.lt_of_succ_le hk
    obtain ⟨hp, hip⟩ := ih hk'.le
    have hbal : balAfter r (annuity r L n) L k = closedBal r L n k :=
      balAfter_closed hr hL hn k hk'.le
    have hpos : 0 < closedBal r L n k := closedBal_pos hr hL hk'
    have hstep : closedBal r L n (k + 1)
        = closedBal r L n k * (1 + r) - annuity r L n := (closedBal_step hr hn).symm
    refine ⟨?_, ?_⟩
    · rw [principalSum, hbal, monthPrincipal, if_pos hpos, hp, hstep]; ring
    · rw [interestSum, principalSum, hbal, monthPrincipal, monthInterest,
        if_pos hpos, if_pos hpos]
      push_cast
      linarith

theorem sums_zero_loan (r M : ℚ) (hM : M = 0) :
    ∀ k, principalSum r M 0 k = 0 ∧ interestSum r M 0 k = 0 := by
  intro k
  induction k with
  | zero => exact ⟨rfl, rfl⟩
  | succ k ih =>
    obtain ⟨hp, hi⟩ := ih
    rw [principalSum, interestSum, hp, hi, balAfter_of_zero, monthPrincipal,
      monthInterest, hM]
    norm_num

/-! ### Concrete scenario (the sidebar defaults, spec §8 example) -/

/-- The end-to-end example scenario: price 550000, 20% down, 6.25% rate,
15-year term, 50000 renovation at 80% recapture, 700 HOA, 1% insurance,
1% maintenance, 2.5% tax on 86% assessed value, 75000 homestead, 3% cap,
3% appreciation/inflation/rent growth, 5% cost of capital, 3500 rent,
7% selling costs. -/
def exampleA : Assumptions :=
  { purchase_price := 550000
    down_payment_percent := 1/5
    mortgage_rate := 1/16
    mortgage_term := 15
    renovation_cost := 50000
    reno_recapture := 4/5
    hoa_monthly := 700
    insurance_rate := 1/100
    maintenance_rate := 1/100
    tax_rate := 1/40
    assessed_value_pct := 43/50
    homestead_exemption := 75000
    tax_cap_rate := 3/100
    appreciation_rate := 3/100
    inflation_rate := 3/100
    rent_appreciation := 3/100
    cost_of_capital := 1/20
    monthly_rent := 3500
    selling_costs_pct := 7/100 }

/-! ### Claim theorems -/

/-- **C1**: for every well-formed assumptions record, the derived monthly
payment `monthly_pi` equals the closed-form annuity value
`r·loan_amount / (1 − (1+r)^(−n))` with `r = mortgage_rate/12`,
`n = term_years·12` and `loan_amount = price·(1 − down_fraction)` whenever
the mortgage rate is nonzero; and when the mortgage rate is zero,
`monthly_pi` equals `loan_amount / n` exactly. -/
theorem monthly_pi_closed_form (a : Assumptions) (hwf : WellFormed a) :
    (a.mortgage_rate ≠ 0 →
      monthly_pi a = monthly_rate a * loan_amount a /
        (1 - (1 + monthly_rate a) ^ (-(n_periods a : ℤ)))) ∧
    (a.mortgage_rate = 0 →
      monthly_pi a = loan_amount a / (n_periods a : ℚ)) := by
  refine ⟨?_, monthly_pi_zero_rate a⟩
  intro hr
  have hrp := monthly_rate_pos a hwf hr
  have hn := n_periods_pos a hwf
  have hD := denom_pos hrp hn
  have hb : (0 : ℚ) < 1 + monthly_rate a := by linarith
  have hbn : ((1 + monthly_rate a) ^ n_periods a : ℚ) ≠ 0 := (pow_pos hb _).ne'
  have hinv : ((1 + monthly_rate a) ^ n_periods a)⁻¹ < 1 := by
    have hP1 : (1 : ℚ) < (1 + monthly_rate a) ^ n_periods a := by linarith
    have hPpos : (0 : ℚ) < (1 + monthly_rate a) ^ n_periods a := by linarith
    have hc := inv_mul_cancel₀ hbn
    nlinarith [inv_pos.mpr hPpos]
  have h2 : 1 - ((1 + monthly_rate a) ^ n_periods a)⁻¹ ≠ 0 := by linarith
  rw [monthly_pi_eq_annuity a hr, annuity, zpow_neg, zpow_natCast]
  field_simp
  ring

theorem monthly_pi_closed_form_witness :
    monthly_pi exampleA = monthly_rate exampleA * loan_amount exampleA /
      (1 - (1 + monthly_rate exampleA) ^ (-(n_periods exampleA : ℤ))) :=
  (monthly_pi_closed_form exampleA (by norm_num [WellFormed, exampleA])).1
    (by norm_num [exampleA])

/-- **C2**: with a positive mortgage rate, running the monthly amortization
update for all `n = term·12` months from `loan_amount` retires the loan:
the recorded principal payments sum to `loan_amount`, the final balance is
exactly zero, and total interest plus total principal over the full term
equals the total payments `monthly_pi · n`. -/
theorem amortization_retires_loan (a : Assumptions) (hwf : WellFormed a)
    (hr : 0 < a.mortgage_rate) :
    principalSum (monthly_rate a) (monthly_pi a) (loan_amount a) (n_periods a)
      = loan_amount a ∧
    balAfter (monthly_rate a) (monthly_pi a) (loan_amount a) (n_periods a) = 0 ∧
    interestSum (monthly_rate a) (monthly_pi a) (loan_amount a) (n_periods a)
      + principalSum (monthly_rate a) (monthly_pi a) (loan_amount a) (n_periods a)
      = (n_periods a : ℚ) * monthly_pi a := by
  have hn := n_periods_pos a hwf
  have hrne : a.mortgage_rate ≠ 0 := hr.ne'
  have hrp := monthly_rate_pos a hwf hrne
  rcases eq_or_lt_of_le (loan_amount_nonneg a hwf) with hL | hL
  · have hM := monthly_pi_zero_loan a hL.symm
    rw [← hL]
    obtain ⟨hp, hi⟩ := sums_zero_loan (monthly_rate a) (monthly_pi a) hM (n_periods a)
    rw [hp, hi, balAfter_of_zero, hM]
    norm_num
  · have hpi := monthly_pi_eq_annuity a hrne
    obtain ⟨hp, hip⟩ := sums_closed hrp hL hn (n_periods a) (le_refl _)
    rw [hpi]
    refine ⟨?_, ?_, hip⟩
    · rw [hp, closedBal_last]; ring
    · rw [balAfter, ← balAfter, balAfter_closed hrp hL hn _ (le_refl _), closedBal_last]

theorem amortization_retires_loan_witness :
    principalSum (monthly_rate exampleA) (monthly_pi exampleA) (loan_amount exampleA)
      (n_periods exampleA) = loan_amount exampleA ∧
    balAfter (monthly_rate exampleA) (monthly_pi exampleA) (loan_amount exampleA)
      (n_periods exampleA) = 0 ∧
    interestSum (monthly_rate exampleA) (monthly_pi exampleA) (loan_amount exampleA)
      (n_periods exampleA)
      + principalSum (monthly_rate exampleA) (monthly_pi exampleA) (loan_amount exampleA)
        (n_periods exampleA)
      = (n_periods exampleA : ℚ) * monthly_pi exampleA :=
  amortization_retires_loan exampleA (by norm_num [WellFormed, exampleA])
    (by norm_num [exampleA])

theorem horizon_le_n_periods (a : Assumptions) (hwf : WellFormed a) :
    180 ≤ n_periods a := by
  rcases hwf.2.2.2.2.1 with h | h <;> norm_num [n_periods, h]

/-- **C3**: in every well-formed run the loan balance follows the monthly
update `interest = balance·r`, `principal = M − interest`,
`balance = max 0 (balance − principal)` — the code's branch agrees with the
`max` form at each of the 180 simulated months — and consequently the
end-of-year balances are monotonically non-increasing across years 1..15
and never negative. -/
theorem loan_balance_monotone (a : Assumptions) (hwf : WellFormed a) :
    (∀ k < 180, amortStep (monthly_rate a) (monthly_pi a) (simBal a k)
      = max 0 (simBal a k - (monthly_pi a - simBal a k * monthly_rate a))) ∧
    (∀ y ≤ 14, (stateAfter a (y + 1)).loan_balance ≤ (stateAfter a y).loan_balance) ∧
    (∀ y ≤ 15, 0 ≤ (stateAfter a y).loan_balance) := by
  have hn := horizon_le_n_periods a hwf
  refine ⟨?_, ?_, ?_⟩
  · intro k hk
    have hk1 : k + 1 ≤ n_periods a := by omega
    have hb0 : 0 ≤ simBal a k := simBal_nonneg a hwf (by omega)
    rcases eq_or_lt_of_le hb0 with hb | hb
    · have hM := monthly_pi_nonneg a hwf
      rw [← hb]
      have hx : (0 : ℚ) - (monthly_pi a - 0 * monthly_rate a) = -monthly_pi a := by
        ring
      rw [hx, amortStep, if_neg (lt_irrefl 0), max_eq_left (neg_nonpos.mpr hM)]
    · have hsucc : simBal a (k + 1)
          = amortStep (monthly_rate a) (monthly_pi a) (simBal a k) := by
        rw [simBal, simBal, balAfter, balAfter, Function.iterate_succ_apply']
      have hnext : 0 ≤ simBal a (k + 1) := simBal_nonneg a hwf hk1
      rw [hsucc, amortStep, if_pos hb] at hnext
      rw [amortStep, if_pos hb, max_eq_right hnext]
  · intro y hy
    rw [stateAfter_loan_balance, stateAfter_loan_balance]
    exact simBal_antitone a hwf (by omega) (by omega)
  · intro y _
    rw [stateAfter_loan_balance]
    exact simBal_nonneg a hwf (by omega)

theorem loan_balance_monotone_witness :
    amortStep (monthly_rate exampleA) (monthly_pi exampleA) (simBal exampleA 0)
      = max 0 (simBal exampleA 0
          - (monthly_pi exampleA - simBal exampleA 0 * monthly_rate exampleA)) ∧
    (stateAfter exampleA 2).loan_balance ≤ (stateAfter exampleA 1).loan_balance ∧
    0 ≤ (stateAfter exampleA 15).loan_balance := by
  obtain ⟨h1, h2, h3⟩ :=
    loan_balance_monotone exampleA (by norm_num [WellFormed, exampleA])
  exact ⟨h1 0 (by norm_num), h2 1 (by norm_num), h3 15 (le_refl 15)⟩

/-- **C4**: year 1's cash flow uses the initial unescalated monthly rent,
HOA, maintenance (`initial_market_value · maintenance_rate`), insurance
(`initial_market_value · insurance_rate`) and tax bill; only the home value
is escalated in year 1, multiplied once by `(1 + appreciation_rate)` before
year 1's owner equity is computed from it. -/
theorem year_one_freeze (a : Assumptions) :
    (escalate a 1 (initState a)).rent_monthly = a.monthly_rent ∧
    (escalate a 1 (initState a)).hoa = a.hoa_monthly ∧
    (escalate a 1 (initState a)).maint = initial_market_value a * a.maintenance_rate ∧
    (escalate a 1 (initState a)).insurance
      = initial_market_value a * a.insurance_rate ∧
    (escalate a 1 (initState a)).tax_bill = initial_tax_bill a ∧
    owner_annual_spend a (escalate a 1 (initState a))
      = monthly_pi a * 12 + a.hoa_monthly * 12 + initial_tax_bill a
        + initial_market_value a * a.maintenance_rate
        + initial_market_value a * a.insurance_rate ∧
    renter_annual_spend (escalate a 1 (initState a)) = a.monthly_rent * 12 ∧
    (escalate a 1 (initState a)).home_value
      = initial_market_value a * (1 + a.appreciation_rate) ∧
    (yearResult a 1).owner_equity
      = initial_market_value a * (1 + a.appreciation_rate)
        - initial_market_value a * (1 + a.appreciation_rate) * a.selling_costs_pct
        - (stateAfter a 1).loan_balance := by
  refine ⟨rfl, rfl, rfl, rfl, rfl, rfl, rfl, rfl, rfl⟩

/-- **C5**: for consecutive simulated years `y` and `y+1` with `y ≥ 1`, the
tax bill grows exactly by the factor `1 + min inflation_rate tax_cap_rate`;
in particular, when the inflation rate exceeds the cap the year-over-year
growth rate is the cap rate, not the inflation rate. -/
theorem tax_bill_capped_growth (a : Assumptions) (y : ℕ) (hy : 1 ≤ y) :
    (stateAfter a (y + 1)).tax_bill
      = (stateAfter a y).tax_bill * (1 + min a.inflation_rate a.tax_cap_rate) ∧
    (a.tax_cap_rate < a.inflation_rate →
      (stateAfter a (y + 1)).tax_bill
        = (stateAfter a y).tax_bill * (1 + a.tax_cap_rate)) := by
  have hgrow : (stateAfter a (y + 1)).tax_bill
      = (stateAfter a y).tax_bill * (1 + min a.inflation_rate a.tax_cap_rate) := by
    rw [stateAfter]
    show (escalate a (y + 1) (stateAfter a y)).tax_bill = _
    rw [escalate, if_pos (by omega)]
  refine ⟨hgrow, fun h => ?_⟩
  rw [hgrow, min_eq_right h.le]

/-- A variant of the default scenario whose inflation (5%) exceeds the 3%
tax cap. -/
def exampleB : Assumptions := { exampleA with inflation_rate := 1/20 }

theorem tax_bill_capped_growth_witness :
    (stateAfter exampleB 2).tax_bill
      = (stateAfter exampleB 1).tax_bill
        * (1 + min exampleB.inflation_rate exampleB.tax_cap_rate) ∧
    (stateAfter exampleB 2).tax_bill
      = (stateAfter exampleB 1).tax_bill * (1 + exampleB.tax_cap_rate) := by
  obtain ⟨h1, h2⟩ := tax_bill_capped_growth exampleB 1 (le_refl 1)
  exact ⟨h1, h2 (by norm_num [exampleB, exampleA])⟩

/-- **C6**: every simulated year's owner cash-flow total charges the full
fixed payment `monthly_pi · 12` on top of the other cost components, and
the spend computation never reads the loan balance — so the same fixed
payment keeps being charged regardless of payoff state. -/
theorem fixed_payment_always_charged (a : Assumptions) (y : ℕ) :
    owner_annual_spend a (escalate a y (stateAfter a (y - 1)))
      = monthly_pi a * 12
        + (escalate a y (stateAfter a (y - 1))).hoa * 12
        + (escalate a y (stateAfter a (y - 1))).tax_bill
        + (escalate a y (stateAfter a (y - 1))).maint
        + (escalate a y (stateAfter a (y - 1))).insurance ∧
    (∀ s : SimState, ∀ b : ℚ,
      owner_annual_spend a { s with loan_balance := b } = owner_annual_spend a s) :=
  ⟨rfl, fun _ _ => rfl⟩

/-- A well-formed scenario with a zero tax rate and a homestead exemption
exceeding the purchase price. -/
def exampleC : Assumptions :=
  { exampleA with
    purchase_price := 100000
    homestead_exemption := 200000
    tax_rate := 0 }

/-- **C7 (counterexample)**: the initial tax bill is *not* negative for
every well-formed record with `homestead_exemption > purchase_price`: with
a zero tax rate the unclamped bill is zero. -/
theorem initial_tax_bill_zero_despite_exemption :
    WellFormed exampleC ∧
    exampleC.purchase_price < exampleC.homestead_exemption ∧
    ¬ initial_tax_bill exampleC < 0 := by
  refine ⟨by norm_num [WellFormed, exampleC, exampleA],
    by norm_num [exampleC, exampleA], ?_⟩
  norm_num [initial_tax_bill, taxable_value_base, exampleC, exampleA]

/-- **C7 (amended)**: `initial_market_value = purchase_price +
renovation_cost · reno_recapture`, `initial_cash_invested =
down_payment_dollars + renovation_cost` seeds the renter portfolio, and
`initial_tax_bill = (purchase_price − homestead_exemption) ·
assessed_value_fraction · tax_rate`; the bill is negative — not clamped to
zero — whenever the homestead exemption exceeds the purchase price *and*
the assessed-value fraction and tax rate are positive, and the simulation
still produces its full 15-row output on that negative bill. -/
theorem initial_values_and_negative_tax (a : Assumptions)
    (hh : a.purchase_price < a.homestead_exemption)
    (hav : 0 < a.assessed_value_pct) (ht : 0 < a.tax_rate) :
    initial_market_value a
      = a.purchase_price + a.renovation_cost * a.reno_recapture ∧
    initial_cash_invested a = down_payment_dollars a + a.renovation_cost ∧
    (initState a).portfolio = initial_cash_invested a ∧
    initial_tax_bill a
      = (a.purchase_price - a.homestead_exemption) * a.assessed_value_pct
        * a.tax_rate ∧
    initial_tax_bill a < 0 ∧
    (runSim a).length = 15 := by
  refine ⟨rfl, rfl, rfl, rfl, ?_, by simp [runSim]⟩
  have hneg : a.purchase_price - a.homestead_exemption < 0 := by linarith
  have := mul_neg_of_neg_of_pos (mul_neg_of_neg_of_pos hneg hav) ht
  simpa [initial_tax_bill, taxable_value_base] using this

/-- The default scenario with the homestead exemption raised above the
purchase price. -/
def exampleD : Assumptions := { exampleA with homestead_exemption := 600000 }

theorem initial_values_and_negative_tax_witness :
    initial_market_value exampleD
      = exampleD.purchase_price + exampleD.renovation_cost * exampleD.reno_recapture ∧
    initial_cash_invested exampleD
      = down_payment_dollars exampleD + exampleD.renovation_cost ∧
    (initState exampleD).portfolio = initial_cash_invested exampleD ∧
    initial_tax_bill exampleD
      = (exampleD.purchase_price - exampleD.homestead_exemption)
        * exampleD.assessed_value_pct * exampleD.tax_rate ∧
    initial_tax_bill exampleD < 0 ∧
    (runSim exampleD).length = 15 :=
  initial_values_and_negative_tax exampleD (by norm_num [exampleD, exampleA])
    (by norm_num [exampleD, exampleA]) (by norm_num [exampleD, exampleA])

/-- **C8**: the engine is deterministic: two invocations on identical
assumption records produce identical outputs, and the output is the
chronological 15-row sequence for years 1..15. -/
theorem engine_deterministic (a₁ a₂ : Assumptions) (h : a₁ = a₂) :
    runSim a₁ = runSim a₂ ∧
    (runSim a₁).length = 15 ∧
    (runSim a₁).map YearResult.year
      = [1, 2, 3, 4, 5, 6, 7, 8, 9, 10, 11, 12, 13, 14, 15] := by
  subst h
  refine ⟨rfl, by simp [runSim], ?_⟩
  rw [runSim, List.map_map]
  rfl

theorem engine_deterministic_witness :
    runSim exampleA = runSim exampleA ∧
    (runSim exampleA).length = 15 ∧
    (runSim exampleA).map YearResult.year
      = [1, 2, 3, 4, 5, 6, 7, 8, 9, 10, 11, 12, 13, 14, 15] :=
  engine_deterministic exampleA exampleA rfl

/-! ### Noninterference of the renter side -/

/-- Agreement of the state components the renter's portfolio update can
read: rent, HOA, maintenance, insurance, tax bill and the portfolio
itself — not the home value. -/
def RenterAgree (s t : SimState) : Prop :=
  s.rent_monthly = t.rent_monthly ∧ s.hoa = t.hoa ∧ s.maint = t.maint ∧
  s.insurance = t.insurance ∧ s.tax_bill = t.tax_bill ∧ s.portfolio = t.portfolio

theorem escalate_renterAgree {a₁ a₂ : Assumptions}
    (hra : a₁.rent_appreciation = a₂.rent_appreciation)
    (hin : a₁.inflation_rate = a₂.inflation_rate)
    (hcap : a₁.tax_cap_rate = a₂.tax_cap_rate)
    {s t : SimState} (hst : RenterAgree s t) (y : ℕ) :
    RenterAgree (escalate a₁ y s) (escalate a₂ y t) := by
  obtain ⟨h1, h2, h3, h4, h5, h6⟩ := hst
  by_cases hy : 1 < y <;>
    simp [escalate, hy, RenterAgree, h1, h2, h3, h4, h5, h6, hra, hin, hcap]

theorem stateAfter_renterAgree (a : Assumptions) (ap₁ sc₁ ap₂ sc₂ : ℚ) :
    ∀ y, RenterAgree
      (stateAfter { a with appreciation_rate := ap₁, selling_costs_pct := sc₁ } y)
      (stateAfter { a with appreciation_rate := ap₂, selling_costs_pct := sc₂ } y) := by
  intro y
  induction y with
  | zero => exact ⟨rfl, rfl, rfl, rfl, rfl, rfl⟩
  | succ y ih =>
    obtain ⟨h1, h2, h3, h4, h5, h6⟩ :=
      @escalate_renterAgree
        { a with appreciation_rate := ap₁, selling_costs_pct := sc₁ }
        { a with appreciation_rate := ap₂, selling_costs_pct := sc₂ }
        rfl rfl rfl _ _ ih (y + 1)
    have hpi : monthly_pi { a with appreciation_rate := ap₁, selling_costs_pct := sc₁ }
        = monthly_pi { a with appreciation_rate := ap₂, selling_costs_pct := sc₂ } := rfl
    refine ⟨?_, ?_, ?_, ?_, ?_, ?_⟩ <;>
      simp only [stateAfter, yearStep, owner_annual_spend, renter_annual_spend,
        h1, h2, h3, h4, h5, h6, hpi]

/-- The renter equity emitted for year `y+1` is the portfolio carried in
the post-year state. -/
theorem yearResult_renter_equity (a : Assumptions) (y : ℕ) :
    (yearResult a (y + 1)).renter_equity = (stateAfter a (y + 1)).portfolio := rfl

/-- **C9**: the renter's side never reads the sale-side inputs: two runs
whose assumptions differ only in the appreciation rate and/or the
selling-costs fraction emit identical `renter_equity` values in every
year's row. -/
theorem renter_equity_noninterference (a : Assumptions) (ap₁ sc₁ ap₂ sc₂ : ℚ) :
    (runSim { a with appreciation_rate := ap₁, selling_costs_pct := sc₁ }).map
        YearResult.renter_equity
      = (runSim { a with appreciation_rate := ap₂, selling_costs_pct := sc₂ }).map
          YearResult.renter_equity := by
  rw [runSim, runSim, List.map_map, List.map_map]
  apply List.map_congr_left
  intro i _
  show (yearResult _ (i + 1)).renter_equity = (yearResult _ (i + 1)).renter_equity
  rw [yearResult_renter_equity, yearResult_renter_equity]
  exact (stateAfter_renterAgree a ap₁ sc₁ ap₂ sc₂ (i + 1)).2.2.2.2.2

/-- The default scenario with a 30-year mortgage term. -/
def exampleE : Assumptions := { exampleA with mortgage_term := 30 }

/-- **C10**: with a 30-year term and a positive loan, the loan is never
retired within the 15-year horizon: the balance at the end of every
simulated year 1..15 is strictly positive, so every emitted year's owner
equity is strictly below the home's net-of-selling-costs value. -/
theorem thirty_year_loan_outlives_horizon (a : Assumptions) (hwf : WellFormed a)
    (hterm : a.mortgage_term = 30) (hL : 0 < loan_amount a)
    (y : ℕ) (hy1 : 1 ≤ y) (hy15 : y ≤ 15) :
    0 < (stateAfter a y).loan_balance ∧
    (yearResult a y).owner_equity
      < (escalate a y (stateAfter a (y - 1))).home_value
        * (1 - a.selling_costs_pct) := by
  have hn : n_periods a = 360 := by simp [n_periods, hterm]
  have hbal : 0 < (stateAfter a y).loan_balance := by
    rw [stateAfter_loan_balance]
    exact simBal_pos a hwf hL (by omega)
  refine ⟨hbal, ?_⟩
  obtain ⟨z, rfl⟩ := Nat.exists_eq_add_of_le hy1
  have hoe : (yearResult a (1 + z)).owner_equity
      = (escalate a (1 + z) (stateAfter a (1 + z - 1))).home_value
        - (escalate a (1 + z) (stateAfter a (1 + z - 1))).home_value
          * a.selling_costs_pct
        - (stateAfter a (1 + z)).loan_balance := by
    have h1z : 1 + z = z + 1 := by omega
    rw [h1z]
    rfl
  have hsplit : (escalate a (1 + z) (stateAfter a (1 + z - 1))).home_value
      * (1 - a.selling_costs_pct)
      = (escalate a (1 + z) (stateAfter a (1 + z - 1))).home_value
        - (escalate a (1 + z) (stateAfter a (1 + z - 1))).home_value
          * a.selling_costs_pct := by ring
  rw [hoe, hsplit]
  linarith

theorem thirty_year_loan_outlives_horizon_witness :
    0 < (stateAfter exampleE 15).loan_balance ∧
    (yearResult exampleE 15).owner_equity
      < (escalate exampleE 15 (stateAfter exampleE 14)).home_value
        * (1 - exampleE.selling_costs_pct) :=
  thirty_year_loan_outlives_horizon exampleE
    (by norm_num [WellFormed, exampleE, exampleA])
    (by norm_num [exampleE, exampleA])
    (by norm_num [loan_amount, down_payment_dollars, exampleE, exampleA])
    15 (by norm_num) (le_refl 15)

end RentVsBuy
